import Mathlib

/-!
Verification of the semantic category resolution subsystem of the
EBAY-POSTING repository.  Python strings are modelled as `List Char`;
Python dictionaries as association lists; the text-completion service,
the embedding model and the FAISS index are modelled as explicit
parameters (they are external boundaries).  Fallible Python code
(code that can raise) is modelled with `Except`.
-/

set_option maxRecDepth 100000

/-- Python strings, modelled as lists of characters. -/
abbrev PyStr := List Char

/-- The characters Python's `str.strip()` / `str.split()` treat as whitespace. -/
def isPySpace (c : Char) : Bool :=
  c == ' ' || c == '\t' || c == '\n' || c == '\r' || c == '\x0b' || c == '\x0c'

/-- Python `s.strip()`: drop whitespace from both ends. -/
def pyStrip (s : PyStr) : PyStr :=
  ((s.dropWhile isPySpace).reverse.dropWhile isPySpace).reverse

/-- Python `s.lower()` (ASCII range, which covers all tokens used by the code). -/
def pyLower (s : PyStr) : PyStr := s.map Char.toLower

/-- Python `s.rfind(ch)`: index of the last occurrence of a character, `-1` if absent. -/
def rfindChar : PyStr → Char → Int
  | [], _ => -1
  | a :: rest, c =>
    if 0 ≤ rfindChar rest c then rfindChar rest c + 1
    else if a == c then 0 else -1

/-- Python `s.rfind(sub)`: start index of the last occurrence of a substring,
`-1` if absent (and `s.length` for the empty pattern, as in Python). -/
def rfindSub : PyStr → PyStr → Int
  | [], pat => if pat.isEmpty then 0 else -1
  | a :: rest, pat =>
    if 0 ≤ rfindSub rest pat then rfindSub rest pat + 1
    else if pat.isPrefixOf (a :: rest) then 0 else -1

/-- Helper for `pySplit`: accumulates the current (reversed) word. -/
def pySplitAux : PyStr → PyStr → List PyStr
  | [], acc => if acc.isEmpty then [] else [acc.reverse]
  | c :: rest, acc =>
    if isPySpace c then
      if acc.isEmpty then pySplitAux rest []
      else acc.reverse :: pySplitAux rest []
    else pySplitAux rest (c :: acc)

/-- Python `s.split()` with no arguments: split on whitespace runs, dropping
empty pieces. -/
def pySplit (s : PyStr) : List PyStr := pySplitAux s []

/-- Python `sep.join(parts)`. -/
def joinSep (sep : PyStr) : List PyStr → PyStr
  | [] => []
  | [x] => x
  | x :: y :: rest => x ++ sep ++ joinSep sep (y :: rest)

-- sanity checks for the primitives (concrete evaluations)
example : pyStrip (" ab ".data) = "ab".data := by decide
example : rfindChar ("a b c".data) ' ' = 3 := by decide
example : rfindChar ("abc".data) ' ' = -1 := by decide
example : rfindSub ("x. y. z".data) (". ".data) = 4 := by decide
example : pySplit ("  foo  bar ".data) = ["foo".data, "bar".data] := by decide
example : pySplit ("   ".data) = [] := by decide
example : joinSep (" > ".data) ["a".data, "b".data, "c".data] = "a > b > c".data := by
  decide

/-! ## Shared string constants of the source code -/

/-- The `"Generic"` brand sentinel. -/
def sentinelBrand : PyStr := "Generic".data

/-- The `"..."` marker appended by the truncation helpers. -/
def ellipsis : PyStr := "...".data

/-! ## `semantic_category_selector._smart_truncate_title`
(identical code also appears in `llm_category_selector._smart_truncate_title`) -/

/-- `SemanticCategorySelector._smart_truncate_title(title, max_length)`:
truncate at the last space strictly inside the first `max_length` characters
when such a space exists at a positive index, else hard-truncate; the kept
prefix is stripped. -/
def smart_truncate_title (title : PyStr) (max_length : Nat) : PyStr :=
  if title.length ≤ max_length then title
  else
    let truncated := title.take max_length
    let last_space := rfindChar truncated ' '
    if 0 < last_space then pyStrip (title.take last_space.toNat)
    else pyStrip (title.take max_length)

/-! ## `llm_category_selector._smart_truncate` (65-char aspect values) -/

/-- The delimiter list `['. ', ': ', '; ', ', ']` tried, in order, by
`_smart_truncate`. -/
def clauseDelimiters : List PyStr :=
  [". ".data, ": ".data, "; ".data, ", ".data]

/-- The `for delimiter in [...]` loop of `_smart_truncate`: the first delimiter
(in list order) whose last occurrence inside `text[:truncate_at]` lies strictly
after `half` wins and produces `text[:pos].strip()`. -/
def tryDelimiters (text : PyStr) (truncate_at half : Nat) : List PyStr → Option PyStr
  | [] => none
  | d :: ds =>
    let pos := rfindSub (text.take truncate_at) d
    if (half : Int) < pos then some (pyStrip (text.take pos.toNat))
    else tryDelimiters text truncate_at half ds

/-- `LLMCategorySelector._smart_truncate(text, max_length)`: three-tier
truncation of aspect values (clause delimiter, then word boundary plus
ellipsis, then hard cut plus ellipsis). -/
def smart_truncate (text : PyStr) (max_length : Nat) : PyStr :=
  if text.length ≤ max_length then text
  else
    let truncate_at := max_length - 3
    match tryDelimiters text truncate_at (max_length / 2) clauseDelimiters with
    | some r => r
    | none =>
      if ' ' ∈ text.take truncate_at then
        let last_space := rfindChar (text.take truncate_at) ' '
        pyStrip (text.take last_space.toNat) ++ ellipsis
      else
        pyStrip (text.take truncate_at) ++ ellipsis

/-! ## `llm_category_selector._validate_brand` -/

/-- The `invalid_brands` set of `_validate_brand`. -/
def invalid_brands : List PyStr :=
  ["custom".data, "personalized".data, "handmade".data, "vintage".data,
   "unique".data, "new".data, "brand".data, "the".data, "a".data, "an".data,
   "with".data, "for".data, "and".data, "n/a".data, "none".data,
   "unknown".data, "generic".data]

/-- `LLMCategorySelector._validate_brand(brand)`: reject empty/whitespace-only
brands, generic filler tokens (case-insensitively) and brands of at most two
characters, substituting the `"Generic"` sentinel. -/
def validate_brand (brand : PyStr) : PyStr :=
  if pyStrip brand = [] then sentinelBrand
  else
    let b := pyStrip brand
    if pyLower b ∈ invalid_brands then sentinelBrand
    else if b.length ≤ 2 then sentinelBrand
    else b

-- sanity checks against the Python behaviour
example : smart_truncate_title ("ab cd".data) 80 = "ab cd".data := by decide
example :
    smart_truncate_title ("ab ".data ++ List.replicate 80 'c') 80 = "ab".data := by
  decide
example : validate_brand ("  New ".data) = sentinelBrand := by decide
example : validate_brand (" Sony ".data) = "Sony".data := by decide
example : validate_brand ("ab".data) = sentinelBrand := by decide

-- tier 1: clause delimiter after the midpoint, no ellipsis
example :
    smart_truncate (List.replicate 40 'x' ++ ". ".data ++ List.replicate 30 'y') 65 =
      List.replicate 40 'x' := by decide
-- tier 2: word boundary plus ellipsis
example :
    smart_truncate (List.replicate 40 'x' ++ " ".data ++ List.replicate 30 'y') 65 =
      List.replicate 40 'x' ++ ellipsis := by decide
-- tier 3: hard cut plus ellipsis
example :
    smart_truncate (List.replicate 70 'x') 65 =
      List.replicate 62 'x' ++ ellipsis := by decide

/-! ## `semantic_category_selector._extract_brand_simple` -/

/-- A Python exception escaping the modelled code. -/
inductive PyErr where
  | indexError
  deriving DecidableEq

/-- The brand-ish specification keys probed by `_extract_brand_simple`. -/
def brandKeys : List PyStr :=
  ["Brand".data, "brand".data, "Brand Name".data, "BrandName".data,
   "Manufacturer".data, "manufacturer".data]

/-- The `for key in [...]` loop of `_extract_brand_simple`: the first key
present in the specifications whose value is a truthy string of length `> 2`
is returned; otherwise the loop falls through. -/
def tryBrandKeys (specs : List (PyStr × PyStr)) : List PyStr → Option PyStr
  | [] => none
  | k :: ks =>
    match List.lookup k specs with
    | some b => if 2 < b.length then some b else tryBrandKeys specs ks
    | none => tryBrandKeys specs ks

/-- `SemanticCategorySelector._extract_brand_simple(title, specifications)`.
The Python expression `title.split()[0] if title else ""` raises `IndexError`
when the title is non-empty but consists only of whitespace; this is modelled
by the `Except.error` case. -/
def extract_brand_simple (title : PyStr) (specs : List (PyStr × PyStr)) :
    Except PyErr PyStr :=
  match tryBrandKeys specs brandKeys with
  | some b => Except.ok b
  | none =>
    match (if title = [] then some ([] : PyStr) else (pySplit title).head?) with
    | none => Except.error PyErr.indexError
    | some first_word =>
      Except.ok
        (if 2 < first_word.length ∧ (first_word.headD ' ').isUpper then first_word
         else sentinelBrand)

example :
    extract_brand_simple ("Sony Headphones".data) [] = Except.ok ("Sony".data) := rfl
example :
    extract_brand_simple ("nice gadget".data) [] = Except.ok sentinelBrand := rfl
example :
    extract_brand_simple ("   ".data) [] = Except.error PyErr.indexError := rfl
example :
    extract_brand_simple ("   ".data) [("Brand".data, "Acme".data)] =
      Except.ok ("Acme".data) := rfl

/-! ## Data model of the selector pipeline -/

/-- A retrieval candidate: one dict of the list returned by
`VectorCategoryDB.search_category` (the fallback candidate built inline in
`optimize_title_and_select_category` carries no `level` key; `level` is never
read downstream, so it is defaulted to `0` there). -/
structure Candidate where
  category_id : PyStr
  name : PyStr
  path : PyStr
  level : Nat
  similarity_score : ℚ
  deriving DecidableEq

/-- Placeholder used to model Python's `top_matches[0]` on the (never reached
for non-empty candidate lists) empty case. -/
def defaultCandidate : Candidate := ⟨[], [], [], 0, 0⟩

/-- The five-tuple returned by
`SemanticCategorySelector.optimize_title_and_select_category`. -/
structure DisambiguationResult where
  optimized_title : PyStr
  brand : PyStr
  selected_category_id : PyStr
  category_name : PyStr
  confidence : ℚ
  deriving DecidableEq

/-- The parsed JSON object produced by the completion inside
`_llm_optimize_title_brand_and_pick_category`; a `none` field models a key
missing from the JSON (handled by `result.get(key, default)`). -/
structure LLMJson where
  optimized_title : Option PyStr
  brand : Option PyStr
  category_id : Option PyStr
  deriving DecidableEq

/-- Outcome of the completion call plus JSON parsing: `err` is any raised
exception (network failure, unparseable JSON), `ok` a parsed object. -/
inductive LLMResult where
  | err
  | ok (j : LLMJson)
  deriving DecidableEq

/-- The post-processing tail of `_llm_optimize_title_brand_and_pick_category`
(lines 366-377): read the three fields with their defaults and clamp the
title to 80 characters with `_smart_truncate_title`.  Returns
`(optimized_title, brand, selected_category_id)`. -/
def llm_post (title : PyStr) (top_categories : List Candidate) (j : LLMJson) :
    PyStr × PyStr × PyStr :=
  let ot0 := j.optimized_title.getD title
  let ot := if 80 < ot0.length then smart_truncate_title ot0 80 else ot0
  (ot, j.brand.getD sentinelBrand,
   j.category_id.getD (top_categories.headD defaultCandidate).category_id)

/-- STEP 2 of `SemanticCategorySelector.optimize_title_and_select_category`
(lines 179-226), as a function of the candidate list produced by STEP 1, of
the flag `use_llm_for_title and self.llm_selector` and of the completion
outcome.  The `except` branch and the non-LLM branch run the same fallback
code (naive 77-char truncation plus `"..."`, `_extract_brand_simple`, first
candidate); `_extract_brand_simple` can raise, which propagates. -/
def optimize_step2 (product_title : PyStr) (specifications : List (PyStr × PyStr))
    (top_matches : List Candidate) (use_llm : Bool) (llm : LLMResult) :
    Except PyErr DisambiguationResult :=
  match use_llm, llm with
  | true, LLMResult.ok j =>
    let post := llm_post product_title top_matches j
    let ot := post.1
    let brand := post.2.1
    let selId := post.2.2
    let m0 := top_matches.headD defaultCandidate
    match top_matches.find? (fun m => decide (m.category_id = selId)) with
    | some m =>
      if m.name = [] then
        Except.ok ⟨ot, brand, m0.category_id, m0.name, m0.similarity_score⟩
      else
        Except.ok ⟨ot, brand, selId, m.name, m.similarity_score⟩
    | none =>
      Except.ok ⟨ot, brand, m0.category_id, m0.name, m0.similarity_score⟩
  | _, _ =>
    let ot :=
      if 80 < product_title.length then product_title.take 77 ++ ellipsis
      else product_title
    let m0 := top_matches.headD defaultCandidate
    match extract_brand_simple product_title specifications with
    | Except.error e => Except.error e
    | Except.ok brand =>
      Except.ok ⟨ot, brand, m0.category_id, m0.name, m0.similarity_score⟩

/-- A small concrete candidate used in the sanity checks and witnesses. -/
def wiperCandidate : Candidate :=
  ⟨"179850".data, "Wiper Blades".data,
   "eBay Motors > Parts > Wiper Blades".data, 3, 51/100⟩

/-- A second concrete candidate. -/
def artCandidate : Candidate :=
  ⟨"360".data, "Art Prints".data, "Art > Art Prints".data, 2, 3/10⟩

example :
    optimize_step2 ("Rain-X Wiper Blades".data) [] [wiperCandidate, artCandidate]
        true (LLMResult.ok ⟨some ("Rain-X 26in Wiper Blades".data),
          some ("Rain-X".data), some ("360".data)⟩) =
      Except.ok ⟨"Rain-X 26in Wiper Blades".data, "Rain-X".data, "360".data,
        "Art Prints".data, 3/10⟩ := rfl

-- an out-of-set id is replaced by the first candidate
example :
    optimize_step2 ("Rain-X Wiper Blades".data) [] [wiperCandidate, artCandidate]
        true (LLMResult.ok ⟨none, none, some ("999".data)⟩) =
      Except.ok ⟨"Rain-X Wiper Blades".data, sentinelBrand, "179850".data,
        "Wiper Blades".data, 51/100⟩ := rfl

-- completion failure degrades to the first candidate
example :
    optimize_step2 ("Rain-X Wiper Blades".data) [] [wiperCandidate, artCandidate]
        true LLMResult.err =
      Except.ok ⟨"Rain-X Wiper Blades".data, "Rain-X".data, "179850".data,
        "Wiper Blades".data, 51/100⟩ := rfl

/-! ## `vector_category_db.VectorCategoryDB` -/

/-- One entry of `self.category_metadata` (parallel to the index rows). -/
structure VdbMeta where
  id : PyStr
  name : PyStr
  level : Nat
  path : PyStr
  parent_id : PyStr
  deriving DecidableEq

/-- One row returned by the FAISS `index.search` boundary: a cosine
similarity and a row number (possibly `-1` for padding). -/
structure SearchHit where
  score : ℚ
  row : Int

/-- The state of a `VectorCategoryDB`: `index` is `none` when FAISS was never
initialized, otherwise the external embed-and-search boundary mapping a query
string and `top_k` to hit rows. -/
structure VectorDB where
  index : Option (PyStr → Nat → List SearchHit)
  category_metadata : List VdbMeta

/-- The error raised by `search_category` on an uninitialized database
(`RuntimeError("Vector database not initialized...")`). -/
inductive VdbError where
  | notInitialized
  deriving DecidableEq

/-- `VectorCategoryDB.search_category(title, description, top_k)`: raise when
the index is missing or the metadata list is empty, else build the query
(title first, description clipped to 200 characters), run the external
search and map surviving rows back to candidate dicts (rows out of range are
skipped, mirroring the `continue` guard). -/
def search_category (db : VectorDB) (product_title product_description : PyStr)
    (top_k : Nat) : Except VdbError (List Candidate) :=
  match db.index with
  | none => Except.error VdbError.notInitialized
  | some search =>
    if db.category_metadata.length = 0 then Except.error VdbError.notInitialized
    else
      let query :=
        if product_description ≠ [] then
          product_title ++ [' '] ++ product_description.take 200
        else product_title
      Except.ok ((search query top_k).filterMap fun hit =>
        if hit.row < (0 : Int) ∨ (db.category_metadata.length : Int) ≤ hit.row then none
        else
          match db.category_metadata.get? hit.row.toNat with
          | none => none
          | some m => some ⟨m.id, m.name, m.path, m.level, hit.score⟩)

/-! ## `category_cache.get_category_path` and
`vector_category_db.initialize_from_cache` (the corpus builder) -/

/-- One value of the `cache.categories` dict. -/
structure CatData where
  name : PyStr
  leaf : Bool
  level : Nat
  parent_id : PyStr
  deriving DecidableEq

/-- The loop body of `CategoryCache.get_category_path`: walk parent pointers
upward, collecting names root-first.  The walk stops on a falsy (empty) id or
an unknown id; the fuel argument models termination of the Python `while`
loop on the acyclic taxonomies it is run on. -/
def category_path_parts (cats : List (PyStr × CatData)) :
    Nat → PyStr → List PyStr
  | 0, _ => []
  | fuel + 1, cid =>
    if cid = [] then []
    else
      match List.lookup cid cats with
      | none => []
      | some c => category_path_parts cats fuel c.parent_id ++ [c.name]

/-- The `" > "` separator of `get_category_path`. -/
def pathSep : PyStr := " > ".data

/-- `CategoryCache.get_category_path(category_id)`. -/
def get_category_path (cats : List (PyStr × CatData)) (cid : PyStr) : PyStr :=
  joinSep pathSep (category_path_parts cats (cats.length + 1) cid)

/-- The `" - "` separator of the embedded source text. -/
def sourceTextSep : PyStr := " - ".data

/-- One record produced per included category by
`VectorCategoryDB.initialize_from_cache`: the id, the `searchable_text`
handed to the embedding model, and the stored metadata fields. -/
structure CorpusEntry where
  id : PyStr
  text : PyStr
  name : PyStr
  level : Nat
  path : PyStr
  deriving DecidableEq

/-- The category-selection loop of `VectorCategoryDB.initialize_from_cache`
(lines 99-125): keep leaf categories of level 2-4 and build
`searchable_text = f"{name} - {path}"` for each. -/
def corpus_from_cache (cats : List (PyStr × CatData)) : List CorpusEntry :=
  cats.filterMap fun p =>
    if p.2.leaf = true then
      if 2 ≤ p.2.level ∧ p.2.level ≤ 4 then
        some ⟨p.1, p.2.name ++ sourceTextSep ++ get_category_path cats p.1,
              p.2.name, p.2.level, get_category_path cats p.1⟩
      else none
    else none

/-- A three-node demonstration taxonomy: Root > Art > Art Prints. -/
def demoCats : List (PyStr × CatData) :=
  [("1".data, ⟨"Root".data, false, 0, []⟩),
   ("20".data, ⟨"Art".data, false, 1, "1".data⟩),
   ("360".data, ⟨"Art Prints".data, true, 2, "20".data⟩)]

example : get_category_path demoCats ("360".data) = "Root > Art > Art Prints".data := by
  decide
example :
    corpus_from_cache demoCats =
      [⟨"360".data, "Art Prints - Root > Art > Art Prints".data,
        "Art Prints".data, 2, "Root > Art > Art Prints".data⟩] := by decide

/-! ## `complete_listing_flow_parallel`: requirements cache -/

/-- The requirements dict `{'required': ..., 'recommended': ..., 'optional': ...}`
returned by `get_category_requirements`; the aspect lists are opaque here. -/
structure Requirements where
  required : List PyStr
  recommended : List PyStr
  optionalAspects : List PyStr
  deriving DecidableEq

/-- The `{'required': [], 'recommended': [], 'optional': []}` object stored on
fetch failure. -/
def empty_requirements : Requirements := ⟨[], [], []⟩

/-- `CategoryRequirementsCache.get(category_id)`. -/
def cache_get (cache : List (PyStr × Requirements)) (cid : PyStr) :
    Option Requirements :=
  List.lookup cid cache

/-- `CategoryRequirementsCache.set(category_id, requirements)`. -/
def cache_set (cache : List (PyStr × Requirements)) (cid : PyStr)
    (r : Requirements) : List (PyStr × Requirements) :=
  (cid, r) :: cache

/-- Outcome of the external `get_category_requirements` fetch: success with a
requirements object, or any raised exception. -/
inductive FetchOutcome where
  | ok (r : Requirements)
  | err
  deriving DecidableEq

/-- `ParallelListingProcessor._get_category_requirements(category_id)`:
return the cached value on a hit; on a miss consult the external boundary,
store the result (the empty object when the fetch raises) and return it.
Returns the value together with the updated cache. -/
def get_category_requirements_cached (cache : List (PyStr × Requirements))
    (cid : PyStr) (fetch : FetchOutcome) :
    Requirements × List (PyStr × Requirements) :=
  match cache_get cache cid with
  | some r => (r, cache)
  | none =>
    match fetch with
    | FetchOutcome.ok r => (r, cache_set cache cid r)
    | FetchOutcome.err => (empty_requirements, cache_set cache cid empty_requirements)

example :
    (get_category_requirements_cached [] ("360".data) FetchOutcome.err).1 =
      empty_requirements := rfl

/-! ## `llm_category_selector._validate_and_truncate_aspects` -/

/-- A JSON value held in the parsed aspects dict: a string, a list, or any
other JSON scalar (numbers, booleans, null), which the validation code
passes through untouched. -/
inductive AspVal where
  | vstr (s : PyStr)
  | vlist (elems : List AspVal)
  | vnum (n : Int)

/-- Truncate one string to eBay's 65-character ceiling when it is too long
(the `len(val) > MAX_LENGTH` guard of `_validate_and_truncate_aspects`). -/
def truncString (s : PyStr) : PyStr :=
  if 65 < s.length then smart_truncate s 65 else s

/-- The per-element body of the multi-value loop of
`_validate_and_truncate_aspects`: only over-long strings are rewritten. -/
def truncElem : AspVal → AspVal
  | AspVal.vstr s => AspVal.vstr (truncString s)
  | v => v

/-- The per-value body of `_validate_and_truncate_aspects`: lists are mapped
element-wise, scalar strings are clamped, anything else is kept. -/
def truncValue : AspVal → AspVal
  | AspVal.vlist xs => AspVal.vlist (xs.map truncElem)
  | AspVal.vstr s => AspVal.vstr (truncString s)
  | v => v

/-- `LLMCategorySelector._validate_and_truncate_aspects(aspects)`: rebuild
the dict with every value validated. -/
def validate_and_truncate_aspects (aspects : List (PyStr × AspVal)) :
    List (PyStr × AspVal) :=
  aspects.map fun p => (p.1, truncValue p.2)

example :
    validate_and_truncate_aspects
        [("Material".data, AspVal.vstr (List.replicate 70 'x')),
         ("Quantity".data, AspVal.vnum 12)] =
      [("Material".data, AspVal.vstr (List.replicate 62 'x' ++ ellipsis)),
       ("Quantity".data, AspVal.vnum 12)] := rfl

/-- A 72-character aspect value whose last clause delimiter inside the
truncation window is `", "` (at index 50) while an earlier `". "` occurrence
(at index 39) also lies beyond the ceiling midpoint. -/
def c6str : PyStr :=
  List.replicate 39 'x' ++ ". ".data ++ List.replicate 9 'y' ++ ", ".data ++
    List.replicate 20 'z'

/-! ## Predicates used to state the claims -/

/-- The truncated title `res` "ends at a position that was a space in the
original title `orig`": it is the original cut at some index holding a
space, then stripped (the cut `_smart_truncate_title` performs). -/
def endsAtSpaceCut (orig res : PyStr) : Bool :=
  (List.range orig.length).any fun p =>
    (orig.getD p '?' == ' ') && (res == pyStrip (orig.take p))

/-- Frame relation for one element of a multi-valued aspect: non-string
elements (numbers and nested lists) pass through unchanged, and string
elements within the 65-character ceiling pass through unchanged. -/
def elemFrame (x y : AspVal) : Prop :=
  (∀ n, x = AspVal.vnum n → y = x) ∧
  (∀ zs, x = AspVal.vlist zs → y = x) ∧
  (∀ s, x = AspVal.vstr s → s.length ≤ 65 → y = x)

/-- Frame relation for one aspect value: non-string non-list values pass
through unchanged, short strings pass through unchanged, and lists keep
their length with each element related by `elemFrame`. -/
def valueFrame (x y : AspVal) : Prop :=
  (∀ n, x = AspVal.vnum n → y = x) ∧
  (∀ s, x = AspVal.vstr s → s.length ≤ 65 → y = x) ∧
  (∀ zs, x = AspVal.vlist zs →
    ∃ ws, y = AspVal.vlist ws ∧ List.Forall₂ elemFrame zs ws)

/-! ## Basic lemmas about the string primitives -/

theorem dropWhile_length_le (p : Char → Bool) (l : List Char) :
    (List.dropWhile p l).length ≤ l.length := by
  induction l with
  | nil => simp [List.dropWhile]
  | cons a rest ih =>
    rw [List.dropWhile]
    cases p a
    · simp
    · simpa using le_trans ih (Nat.le_succ _)

theorem pyStrip_length_le (s : PyStr) : (pyStrip s).length ≤ s.length := by
  unfold pyStrip
  rw [List.length_reverse]
  refine le_trans (dropWhile_length_le _ _) ?_
  rw [List.length_reverse]
  exact dropWhile_length_le _ _

theorem rfindChar_lt_length (s : PyStr) (c : Char) :
    rfindChar s c < (s.length : Int) := by
  induction s with
  | nil => simp [rfindChar]
  | cons a rest ih =>
    rw [rfindChar]
    split
    · simp only [List.length_cons]
      push_cast
      omega
    · split <;> simp only [List.length_cons] <;> push_cast <;> omega

theorem rfindChar_getD (s : PyStr) (c d : Char) (h : 0 ≤ rfindChar s c) :
    s.getD (rfindChar s c).toNat d = c := by
  induction s with
  | nil => simp [rfindChar] at h
  | cons a rest ih =>
    rw [rfindChar] at h ⊢
    split at h
    · rename_i hr
      have h1 : (rfindChar rest c + 1).toNat = (rfindChar rest c).toNat + 1 := by
        omega
      rw [if_pos hr, h1]
      simpa using ih hr
    · split at h
      · rename_i hr hac
        rw [if_neg hr, if_pos hac]
        simpa using eq_of_beq hac
      · omega

theorem rfindChar_nonneg_of_mem {s : PyStr} {c : Char} (h : c ∈ s) :
    0 ≤ rfindChar s c := by
  induction s with
  | nil => simp at h
  | cons a rest ih =>
    rw [rfindChar]
    rcases List.mem_cons.mp h with h1 | h2
    · split
      · omega
      · rw [if_pos]
        exact beq_iff_eq.mpr h1.symm
    · have := ih h2
      rw [if_pos this]
      omega

theorem rfindChar_ge_of_getD {s : PyStr} {c d : Char} {p : Nat}
    (hp : p < s.length) (hc : s.getD p d = c) : (p : Int) ≤ rfindChar s c := by
  induction s generalizing p with
  | nil => simp at hp
  | cons a rest ih =>
    rw [rfindChar]
    cases p with
    | zero =>
      have ha : a = c := by simpa using hc
      split
      · omega
      · rw [if_pos (beq_iff_eq.mpr ha)]
        simp
    | succ q =>
      have hq : q < rest.length := by simpa using hp
      have hcq : rest.getD q d = c := by simpa using hc
      have := ih hq hcq
      have hnn : 0 ≤ rfindChar rest c := le_trans (by omega) this
      rw [if_pos hnn]
      push_cast
      omega

theorem rfindSub_lt_length {pat : PyStr} (hpat : pat ≠ []) (s : PyStr) :
    rfindSub s pat < (s.length : Int) := by
  induction s with
  | nil =>
    simp [rfindSub, List.isEmpty_iff, hpat]
  | cons a rest ih =>
    rw [rfindSub]
    split
    · simp only [List.length_cons]
      push_cast
      omega
    · split <;> simp only [List.length_cons] <;> push_cast <;> omega

/-! ## Lemmas about the truncation helpers -/

theorem tryDelimiters_some {text : PyStr} {truncate_at half : Nat} {ds : List PyStr}
    {r : PyStr} (h : tryDelimiters text truncate_at half ds = some r) :
    ∃ d ∈ ds, (half : Int) < rfindSub (text.take truncate_at) d ∧
      r = pyStrip (text.take (rfindSub (text.take truncate_at) d).toNat) := by
  induction ds with
  | nil => simp [tryDelimiters] at h
  | cons d ds ih =>
    rw [tryDelimiters] at h
    split at h
    · rename_i hlt
      exact ⟨d, List.mem_cons_self .., hlt, (Option.some_injective _ h).symm⟩
    · obtain ⟨d', hd', hlt, hr⟩ := ih h
      exact ⟨d', List.mem_cons_of_mem _ hd', hlt, hr⟩

/-- Strengthening of `tryDelimiters_some`: the winning delimiter is the
FIRST one in list order whose last occurrence lies past `half` — every
delimiter earlier in the list fails the `half` test. -/
theorem tryDelimiters_some_priority {text : PyStr} {truncate_at half : Nat}
    {ds : List PyStr} {r : PyStr}
    (h : tryDelimiters text truncate_at half ds = some r) :
    ∃ i, i < ds.length ∧
      (half : Int) < rfindSub (text.take truncate_at) (ds.getD i []) ∧
      (∀ j, j < i → rfindSub (text.take truncate_at) (ds.getD j []) ≤ half) ∧
      r = pyStrip (text.take
        (rfindSub (text.take truncate_at) (ds.getD i [])).toNat) := by
  induction ds with
  | nil => simp [tryDelimiters] at h
  | cons d ds ih =>
    rw [tryDelimiters] at h
    split at h
    · rename_i hlt
      refine ⟨0, by simp, ?_, ?_, ?_⟩
      · rw [List.getD_cons_zero]
        exact hlt
      · intro j hj
        omega
      · rw [List.getD_cons_zero]
        exact (Option.some_injective _ h).symm
    · rename_i hle
      obtain ⟨i, hi, hlt, hprev, hr⟩ := ih h
      refine ⟨i + 1, by simp only [List.length_cons]; omega, ?_, ?_, ?_⟩
      · rw [List.getD_cons_succ]
        exact hlt
      · intro j hj
        cases j with
        | zero =>
          rw [List.getD_cons_zero]
          omega
        | succ j' =>
          rw [List.getD_cons_succ]
          exact hprev j' (by omega)
      · rw [List.getD_cons_succ]
        exact hr

theorem tryDelimiters_none {text : PyStr} {truncate_at half : Nat} {ds : List PyStr}
    (h : tryDelimiters text truncate_at half ds = none) :
    ∀ d ∈ ds, rfindSub (text.take truncate_at) d ≤ (half : Int) := by
  induction ds with
  | nil => simp
  | cons d ds ih =>
    rw [tryDelimiters] at h
    split at h
    · exact absurd h (by simp)
    · rename_i hle
      intro d' hd'
      rcases List.mem_cons.mp hd' with h1 | h2
      · subst h1; omega
      · exact ih h d' h2

/-- Every delimiter of `_smart_truncate` is a non-empty string. -/
theorem clauseDelimiters_ne_nil : ∀ d ∈ clauseDelimiters, d ≠ [] := by decide

theorem smart_truncate_length_le (s : PyStr) :
    (smart_truncate s 65).length ≤ 65 := by
  unfold smart_truncate
  split
  · omega
  · rename_i hlong
    dsimp only
    split
    · rename_i r hsome
      obtain ⟨d, hd, hlt, hr⟩ := tryDelimiters_some hsome
      have hbound : rfindSub (s.take (65 - 3)) d < ((s.take (65 - 3)).length : Int) :=
        rfindSub_lt_length (clauseDelimiters_ne_nil d hd) _
      have hlen : (s.take (65 - 3)).length ≤ 62 := by
        simp [List.length_take]
      have hto : (rfindSub (s.take (65 - 3)) d).toNat ≤ 61 := by omega
      subst hr
      refine le_trans (pyStrip_length_le _) ?_
      refine le_trans ?_ (le_trans hto (by omega))
      simp [List.length_take]
    · split
      · rename_i hsp
        have hnn : (0 : Int) ≤ rfindChar (s.take (65 - 3)) ' ' :=
          rfindChar_nonneg_of_mem hsp
        have hlt : rfindChar (s.take (65 - 3)) ' ' < ((s.take (65 - 3)).length : Int) :=
          rfindChar_lt_length _ _
        have hlen : (s.take (65 - 3)).length ≤ 62 := by
          simp [List.length_take]
        have hto : (rfindChar (s.take (65 - 3)) ' ').toNat ≤ 61 := by omega
        rw [List.length_append]
        have h1 : (pyStrip (s.take (rfindChar (s.take (65 - 3)) ' ').toNat)).length ≤ 61 := by
          refine le_trans (pyStrip_length_le _) ?_
          refine le_trans ?_ hto
          simp [List.length_take]
        have h2 : ellipsis.length = 3 := by decide
        omega
      · rw [List.length_append]
        have h1 : (pyStrip (s.take (65 - 3))).length ≤ 62 := by
          refine le_trans (pyStrip_length_le _) ?_
          simp [List.length_take]
        have h2 : ellipsis.length = 3 := by decide
        omega

theorem headD_mem {α : Type} {l : List α} (d : α) (h : l ≠ []) : l.headD d ∈ l := by
  cases l with
  | nil => exact absurd rfl h
  | cons a rest => simp [List.headD]

theorem getD_take {l : PyStr} {i n : Nat} (h : i < n) (d : Char) :
    (l.take n).getD i d = l.getD i d := by
  simp [List.getD_eq_getElem?_getD, List.getElem?_take_of_lt h]

theorem smart_truncate_title_length_le (t : PyStr) :
    (smart_truncate_title t 80).length ≤ 80 := by
  unfold smart_truncate_title
  split
  · omega
  · rename_i hlong
    dsimp only
    split
    · rename_i hpos
      have hlt : rfindChar (t.take 80) ' ' < ((t.take 80).length : Int) :=
        rfindChar_lt_length _ _
      have hlen : (t.take 80).length ≤ 80 := by simp [List.length_take]
      have hto : (rfindChar (t.take 80) ' ').toNat ≤ 79 := by omega
      refine le_trans (pyStrip_length_le _) ?_
      refine le_trans ?_ (le_trans hto (by omega))
      simp [List.length_take]
    · refine le_trans (pyStrip_length_le _) ?_
      simp [List.length_take]

theorem llm_post_title_length_le (t : PyStr) (top : List Candidate) (j : LLMJson) :
    (llm_post t top j).1.length ≤ 80 := by
  unfold llm_post
  dsimp only
  split
  · exact smart_truncate_title_length_le _
  · omega

/-! ## Claim theorems -/

/-- C1 (domain containment): every result of
`optimize_title_and_select_category` built from a non-empty candidate list
selects a category id drawn from that list, and whenever the completion
returns an id that is not among the candidates, the first (top-similarity)
candidate is substituted. -/
theorem domain_containment (pt : PyStr) (specs : List (PyStr × PyStr))
    (top : List Candidate) (u : Bool) (llm : LLMResult) (h : top ≠ []) :
    (∀ r, optimize_step2 pt specs top u llm = Except.ok r →
      r.selected_category_id ∈ top.map Candidate.category_id) ∧
    (∀ j cid r, u = true → llm = LLMResult.ok j → j.category_id = some cid →
      cid ∉ top.map Candidate.category_id →
      optimize_step2 pt specs top u llm = Except.ok r →
      r.selected_category_id = (top.headD defaultCandidate).category_id) := by
  have hmem0 : (top.headD defaultCandidate).category_id ∈ top.map Candidate.category_id :=
    List.mem_map.mpr ⟨top.headD defaultCandidate, headD_mem _ h, rfl⟩
  constructor
  · intro r hr
    cases u <;> cases llm <;> unfold optimize_step2 at hr <;> dsimp only at hr
    · split at hr
      · exact absurd hr (by simp)
      · cases hr
        exact hmem0
    · split at hr
      · exact absurd hr (by simp)
      · cases hr
        exact hmem0
    · split at hr
      · exact absurd hr (by simp)
      · cases hr
        exact hmem0
    · rename_i j
      split at hr
      · rename_i m hfind
        have hm : m ∈ top := List.mem_of_find?_eq_some hfind
        have hpm := List.find?_some hfind
        have hid : m.category_id = (llm_post pt top j).2.2 := of_decide_eq_true hpm
        split at hr
        · cases hr
          exact hmem0
        · cases hr
          exact List.mem_map.mpr ⟨m, hm, hid⟩
      · cases hr
        exact hmem0
  · intro j cid r hu hllm hjid hnot hr
    subst hu
    subst hllm
    have hsel : (llm_post pt top j).2.2 = cid := by
      unfold llm_post
      rw [hjid]
      rfl
    have hnone : top.find? (fun m => decide (m.category_id = (llm_post pt top j).2.2)) = none := by
      rw [hsel]
      refine List.find?_eq_none.mpr ?_
      intro m hm
      simp only [decide_eq_true_eq]
      intro hEq
      exact hnot (List.mem_map.mpr ⟨m, hm, hEq⟩)
    unfold optimize_step2 at hr
    dsimp only at hr
    rw [hnone] at hr
    cases hr
    rfl

/-- Witness for `domain_containment`: a concrete run whose completion picks
the second candidate, and a concrete run whose completion returns an
out-of-set id and gets the first candidate substituted. -/
theorem domain_containment_witness :
    (DisambiguationResult.mk ("Rain-X 26in Wiper Blades".data) ("Rain-X".data)
        ("360".data) ("Art Prints".data) (3/10)).selected_category_id ∈
      [wiperCandidate, artCandidate].map Candidate.category_id ∧
    (DisambiguationResult.mk ("Rain-X Wiper Blades".data) sentinelBrand
        ("179850".data) ("Wiper Blades".data) (51/100)).selected_category_id =
      ([wiperCandidate, artCandidate].headD defaultCandidate).category_id :=
  ⟨(domain_containment ("Rain-X Wiper Blades".data) [] [wiperCandidate, artCandidate]
      true (LLMResult.ok ⟨some ("Rain-X 26in Wiper Blades".data),
        some ("Rain-X".data), some ("360".data)⟩) (by decide)).1 _ rfl,
   (domain_containment ("Rain-X Wiper Blades".data) [] [wiperCandidate, artCandidate]
      true (LLMResult.ok ⟨none, none, some ("999".data)⟩) (by decide)).2
     ⟨none, none, some ("999".data)⟩ ("999".data) _ rfl rfl rfl (by decide) rfl⟩

/-- C2 (amended; see `title_word_boundary_counterexample`): every pipeline
result's title has length at most 80.  A title clamped by
`_smart_truncate_title` ends at a position that was a space in the original
whenever the first 80 characters contain a space at a positive index, and is
the stripped hard cut of the first 80 characters otherwise (so a space at
index 0 only still hard-cuts); the degraded path instead appends an
ellipsis to a plain 77-character cut. -/
theorem title_length_invariant :
    (∀ pt specs top u llm r, optimize_step2 pt specs top u llm = Except.ok r →
      r.optimized_title.length ≤ 80) ∧
    (∀ t : PyStr, 80 < t.length →
      (0 < rfindChar (t.take 80) ' ' →
        endsAtSpaceCut t (smart_truncate_title t 80) = true) ∧
      (rfindChar (t.take 80) ' ' ≤ 0 →
        smart_truncate_title t 80 = pyStrip (t.take 80))) := by
  constructor
  · intro pt specs top u llm r hr
    have hell : ellipsis.length = 3 := by decide
    cases u <;> cases llm <;> unfold optimize_step2 at hr <;> dsimp only at hr
    · split at hr
      · exact absurd hr (by simp)
      · cases hr
        dsimp only
        split
        · rename_i hlen
          rw [List.length_append, List.length_take]
          omega
        · rename_i hlen
          simpa using by omega
    · split at hr
      · exact absurd hr (by simp)
      · cases hr
        dsimp only
        split
        · rename_i hlen
          rw [List.length_append, List.length_take]
          omega
        · rename_i hlen
          simpa using by omega
    · split at hr
      · exact absurd hr (by simp)
      · cases hr
        dsimp only
        split
        · rename_i hlen
          rw [List.length_append, List.length_take]
          omega
        · rename_i hlen
          simpa using by omega
    · rename_i j
      split at hr
      · split at hr
        · cases hr
          exact llm_post_title_length_le pt top j
        · cases hr
          exact llm_post_title_length_le pt top j
      · cases hr
        exact llm_post_title_length_le pt top j
  · intro t ht
    constructor
    · intro hpos
      unfold smart_truncate_title
      rw [if_neg (by omega)]
      dsimp only
      rw [if_pos hpos]
      have hnn : 0 ≤ rfindChar (t.take 80) ' ' := le_of_lt hpos
      have hlt80 : rfindChar (t.take 80) ' ' < ((t.take 80).length : Int) :=
        rfindChar_lt_length _ _
      have hlen80 : (t.take 80).length = 80 := by
        rw [List.length_take]
        omega
      have hklt : (rfindChar (t.take 80) ' ').toNat < 80 := by omega
      have hsp : t.getD (rfindChar (t.take 80) ' ').toNat '?' = ' ' := by
        rw [← getD_take hklt '?']
        exact rfindChar_getD _ _ _ hnn
      refine List.any_eq_true.mpr ?_
      refine ⟨(rfindChar (t.take 80) ' ').toNat, List.mem_range.mpr (by omega), ?_⟩
      rw [Bool.and_eq_true, beq_iff_eq, beq_iff_eq]
      exact ⟨hsp, rfl⟩
    · intro hle
      unfold smart_truncate_title
      rw [if_neg (by omega)]
      dsimp only
      rw [if_neg (by omega)]

/-- Witness for `title_length_invariant`: the length bound at a concrete
degraded run, the space-cut case at a concrete over-long title, and the
hard-cut case at a concrete space-free title. -/
theorem title_length_invariant_witness :
    (DisambiguationResult.mk (("AB ".data ++ List.replicate 74 'c') ++ ellipsis)
        sentinelBrand ("360".data) ("Art Prints".data) (3/10)).optimized_title.length ≤ 80 ∧
    endsAtSpaceCut ("AB ".data ++ List.replicate 85 'c')
      (smart_truncate_title ("AB ".data ++ List.replicate 85 'c') 80) = true ∧
    smart_truncate_title (List.replicate 85 'c') 80 =
      pyStrip ((List.replicate 85 'c').take 80) :=
  ⟨title_length_invariant.1 ("AB ".data ++ List.replicate 85 'c') [] [artCandidate]
      false LLMResult.err _ rfl,
   (title_length_invariant.2 ("AB ".data ++ List.replicate 85 'c') (by decide)).1
     (by decide),
   (title_length_invariant.2 (List.replicate 85 'c') (by decide)).2 (by decide)⟩

/-- C2 counterexample: on the degraded path (completion unavailable) the
returned title is shorter than the pre-truncation title and is cut mid-word
with an appended ellipsis, even though the original title contains a space
before the 80-character ceiling — so the truncation does not always end at a
position that was a space in the original. -/
theorem title_word_boundary_counterexample :
    optimize_step2 ("AB ".data ++ List.replicate 85 'c') [] [artCandidate] false
        LLMResult.err =
      Except.ok ⟨("AB ".data ++ List.replicate 74 'c') ++ ellipsis, sentinelBrand,
        "360".data, "Art Prints".data, 3/10⟩ ∧
    (("AB ".data ++ List.replicate 74 'c') ++ ellipsis).length <
      ("AB ".data ++ List.replicate 85 'c').length ∧
    ' ' ∈ ("AB ".data ++ List.replicate 85 'c').take 80 ∧
    endsAtSpaceCut ("AB ".data ++ List.replicate 85 'c')
      (("AB ".data ++ List.replicate 74 'c') ++ ellipsis) = false :=
  ⟨rfl, by decide, by decide, by decide⟩

theorem truncString_length_le (s : PyStr) : (truncString s).length ≤ 65 := by
  unfold truncString
  split
  · exact smart_truncate_length_le s
  · omega

/-- C3: every string value in the output of `_validate_and_truncate_aspects`
— whether a scalar value or an element of a list value — has length at most
65 characters. -/
theorem aspect_value_length_invariant (aspects : List (PyStr × AspVal)) :
    ∀ p ∈ validate_and_truncate_aspects aspects,
      (∀ s, p.2 = AspVal.vstr s → s.length ≤ 65) ∧
      (∀ xs, p.2 = AspVal.vlist xs → ∀ x ∈ xs, ∀ s, x = AspVal.vstr s →
        s.length ≤ 65) := by
  intro p hp
  obtain ⟨q, hq, hpq⟩ := List.mem_map.mp hp
  subst hpq
  constructor
  · intro s hs
    cases hv : q.2 with
    | vstr s0 =>
      rw [hv] at hs
      simp only [truncValue] at hs
      have hs' : truncString s0 = s := by simpa using hs
      rw [← hs']
      exact truncString_length_le _
    | vlist zs =>
      rw [hv] at hs
      simp only [truncValue] at hs
      exact absurd hs (by simp)
    | vnum n =>
      rw [hv] at hs
      simp only [truncValue] at hs
      exact absurd hs (by simp)
  · intro xs hxs x hx s hs
    cases hv : q.2 with
    | vstr s0 =>
      rw [hv] at hxs
      simp only [truncValue] at hxs
      exact absurd hxs (by simp)
    | vnum n =>
      rw [hv] at hxs
      simp only [truncValue] at hxs
      exact absurd hxs (by simp)
    | vlist zs =>
      rw [hv] at hxs
      simp only [truncValue] at hxs
      have hxs' : List.map truncElem zs = xs := by simpa using hxs
      rw [← hxs'] at hx
      obtain ⟨z, hz, hzx⟩ := List.mem_map.mp hx
      subst hzx
      cases z with
      | vstr s1 =>
        simp only [truncElem] at hs
        have hs' : truncString s1 = s := by simpa using hs
        rw [← hs']
        exact truncString_length_le _
      | vlist ws =>
        simp only [truncElem] at hs
        exact absurd hs (by simp)
      | vnum m =>
        simp only [truncElem] at hs
        exact absurd hs (by simp)

/-- Witness for `aspect_value_length_invariant`: a 70-character scalar value
and a 70-character list element both end up at most 65 characters long. -/
theorem aspect_value_length_invariant_witness :
    (truncString (List.replicate 70 'x')).length ≤ 65 ∧
    (truncString (List.replicate 70 'w')).length ≤ 65 :=
  ⟨(aspect_value_length_invariant
      [("Material".data, AspVal.vstr (List.replicate 70 'x'))]
      ("Material".data, AspVal.vstr (truncString (List.replicate 70 'x')))
      (by simp [validate_and_truncate_aspects, truncValue])).1 _ rfl,
   (aspect_value_length_invariant
      [("Features".data, AspVal.vlist [AspVal.vstr (List.replicate 70 'w')])]
      ("Features".data, AspVal.vlist [AspVal.vstr (truncString (List.replicate 70 'w'))])
      (by simp [validate_and_truncate_aspects, truncValue, truncElem])).2 _ rfl
     (AspVal.vstr (truncString (List.replicate 70 'w'))) (by simp) _ rfl⟩

/-- C4 (amended; see `brand_sentinel_counterexample`): brands passed through
`LLMCategorySelector._validate_brand` are either the `"Generic"` sentinel or
a string that is not (case-insensitively) a rejected generic token and has at
least 3 characters; and the sentinel is returned exactly when the stripped
input is empty, lowers to a rejected token, or has at most two characters.
The semantic-selector path returns the completion's brand without this
validation. -/
theorem validate_brand_sentinel (b : PyStr) :
    (validate_brand b = sentinelBrand ∨
      (pyLower (validate_brand b) ∉ invalid_brands ∧
        3 ≤ (validate_brand b).length)) ∧
    (validate_brand b = sentinelBrand ↔
      (pyStrip b = [] ∨ pyLower (pyStrip b) ∈ invalid_brands ∨
        (pyStrip b).length ≤ 2)) := by
  unfold validate_brand
  dsimp only
  split
  · rename_i h0
    exact ⟨Or.inl rfl, by simp [h0]⟩
  · rename_i h0
    split
    · rename_i h1
      exact ⟨Or.inl rfl, by simp [h1]⟩
    · rename_i h1
      split
      · rename_i h2
        exact ⟨Or.inl rfl, by simp [h2]⟩
      · rename_i h2
        refine ⟨Or.inr ⟨h1, by omega⟩, ?_, ?_⟩
        · intro hEq
          exfalso
          apply h1
          rw [hEq]
          decide
        · intro hor
          rcases hor with hx | hx | hx
          · exact absurd hx h0
          · exact absurd hx h1
          · exact absurd hx h2

/-- Witness for `validate_brand_sentinel`, instantiated at the rejected
token `"vintage"`. -/
theorem validate_brand_sentinel_witness :
    (validate_brand ("vintage".data) = sentinelBrand ∨
      (pyLower (validate_brand ("vintage".data)) ∉ invalid_brands ∧
        3 ≤ (validate_brand ("vintage".data)).length)) ∧
    (validate_brand ("vintage".data) = sentinelBrand ↔
      (pyStrip ("vintage".data) = [] ∨
        pyLower (pyStrip ("vintage".data)) ∈ invalid_brands ∨
        (pyStrip ("vintage".data)).length ≤ 2)) :=
  validate_brand_sentinel ("vintage".data)

/-- C4 counterexample: `optimize_title_and_select_category` returns the
completion's brand without running `_validate_brand`, so a Disambiguation
Result can carry the rejected token `"custom"` as its brand (and not the
sentinel), falsifying the claim for every-result brand validity. -/
theorem brand_sentinel_counterexample :
    optimize_step2 ("Custom Mug".data) [] [artCandidate] true
        (LLMResult.ok ⟨some ("Custom Mug".data), some ("custom".data),
          some ("360".data)⟩) =
      Except.ok ⟨"Custom Mug".data, "custom".data, "360".data,
        "Art Prints".data, 3/10⟩ ∧
    pyLower ("custom".data) ∈ invalid_brands ∧
    ("custom".data : PyStr) ≠ sentinelBrand :=
  ⟨rfl, by decide, by decide⟩

/-- C5 (amended; see `completion_failure_counterexample`): when the
completion call fails and the simple specifications/title brand lookup
returns a value (that is, a brand key is found, the title is empty, or the
title contains a non-whitespace character), the pipeline returns the
complete degraded result: the naively truncated original title, the
simple-lookup brand, and the first retrieval candidate's id, name and
similarity score as the selected category and confidence. -/
theorem completion_failure_degraded_path (pt : PyStr)
    (specs : List (PyStr × PyStr)) (top : List Candidate) (b : PyStr)
    (h : top ≠ []) (hb : extract_brand_simple pt specs = Except.ok b) :
    optimize_step2 pt specs top true LLMResult.err =
      Except.ok ⟨(if 80 < pt.length then pt.take 77 ++ ellipsis else pt), b,
        (top.headD defaultCandidate).category_id,
        (top.headD defaultCandidate).name,
        (top.headD defaultCandidate).similarity_score⟩ := by
  unfold optimize_step2
  dsimp only
  rw [hb]

/-- Witness for `completion_failure_degraded_path` at a concrete failed run. -/
theorem completion_failure_degraded_path_witness :
    optimize_step2 ("Rain-X Wiper Blades".data) [] [wiperCandidate] true
        LLMResult.err =
      Except.ok ⟨"Rain-X Wiper Blades".data, "Rain-X".data, "179850".data,
        "Wiper Blades".data, 51/100⟩ :=
  completion_failure_degraded_path ("Rain-X Wiper Blades".data) [] [wiperCandidate]
    ("Rain-X".data) (by decide) rfl

/-- C5 counterexample: with a whitespace-only (but non-empty) title and no
specifications, the degraded path itself raises `IndexError` out of
`title.split()[0]` in `_extract_brand_simple`, so a completion failure does
propagate an exception to the caller instead of producing a result. -/
theorem completion_failure_counterexample :
    optimize_step2 ("   ".data) [] [artCandidate] true LLMResult.err =
      Except.error PyErr.indexError := rfl

/-- C6 (amended; see `smart_truncate_priority_counterexample`): for every
string longer than 65 characters, `_smart_truncate` (1) cuts at the last
occurrence, within the first 62 (= ceiling minus 3) characters, of the first
delimiter in the priority order `'. '`, `': '`, `'; '`, `', '` whose last
occurrence lies after the ceiling's midpoint, without an ellipsis; (2)
otherwise cuts at the last space within the first 62 characters and appends
an ellipsis; (3) otherwise hard-cuts at 62 characters and appends an
ellipsis; and the same function is applied to scalar values and to each
string element of list values by `_validate_and_truncate_aspects`. -/
theorem smart_truncate_three_tier :
    (∀ s : PyStr, 65 < s.length →
      (∃ i, i < clauseDelimiters.length ∧ ∃ p : Nat,
        rfindSub (s.take 62) (clauseDelimiters.getD i []) = (p : Int) ∧ 32 < p ∧
        (∀ j, j < i → rfindSub (s.take 62) (clauseDelimiters.getD j []) ≤ 32) ∧
        smart_truncate s 65 = pyStrip (s.take p)) ∨
      ((∀ d ∈ clauseDelimiters, rfindSub (s.take 62) d ≤ 32) ∧
        ' ' ∈ s.take 62 ∧ ∃ p : Nat,
        rfindChar (s.take 62) ' ' = (p : Int) ∧ s.getD p '?' = ' ' ∧
        smart_truncate s 65 = pyStrip (s.take p) ++ ellipsis) ∨
      ((∀ d ∈ clauseDelimiters, rfindSub (s.take 62) d ≤ 32) ∧
        ' ' ∉ s.take 62 ∧
        smart_truncate s 65 = pyStrip (s.take 62) ++ ellipsis)) ∧
    (∀ (k : PyStr) (s : PyStr),
      validate_and_truncate_aspects [(k, AspVal.vstr s)] =
        [(k, AspVal.vstr (truncString s))] ∧
      validate_and_truncate_aspects [(k, AspVal.vlist [AspVal.vstr s])] =
        [(k, AspVal.vlist [AspVal.vstr (truncString s)])]) := by
  constructor
  · intro s hlen
    have h62 : (65 : Nat) - 3 = 62 := rfl
    have h32 : (65 : Nat) / 2 = 32 := rfl
    unfold smart_truncate
    rw [if_neg (by omega)]
    dsimp only
    rw [h62, h32]
    cases htd : tryDelimiters s 62 32 clauseDelimiters with
    | some r =>
      left
      obtain ⟨i, hi, hlt, hprev, hr⟩ := tryDelimiters_some_priority htd
      have hnn : 0 ≤ rfindSub (s.take 62) (clauseDelimiters.getD i []) := by omega
      refine ⟨i, hi, (rfindSub (s.take 62) (clauseDelimiters.getD i [])).toNat,
        ?_, ?_, hprev, ?_⟩
      · omega
      · omega
      · rw [hr]
    | none =>
      have hno := tryDelimiters_none htd
      right
      by_cases hsp : ' ' ∈ s.take 62
      · left
        have hnn : 0 ≤ rfindChar (s.take 62) ' ' := rfindChar_nonneg_of_mem hsp
        have hlt : rfindChar (s.take 62) ' ' < ((s.take 62).length : Int) :=
          rfindChar_lt_length _ _
        have hlen62 : (s.take 62).length = 62 := by
          rw [List.length_take]
          omega
        have hklt : (rfindChar (s.take 62) ' ').toNat < 62 := by omega
        refine ⟨hno, hsp, (rfindChar (s.take 62) ' ').toNat, by omega, ?_, ?_⟩
        · rw [← getD_take hklt '?']
          exact rfindChar_getD _ _ _ hnn
        · rw [if_pos hsp]
      · right
        refine ⟨hno, hsp, ?_⟩
        rw [if_neg hsp]
  · intro k s
    constructor
    · rfl
    · rfl

/-- Witness for `smart_truncate_three_tier`: the tier decomposition holds at
the concrete string `c6str` (where the priority clause of tier 1 bites: the
higher-priority `'. '` wins over the later `', '`), and the aspect validator
applies `_smart_truncate` to a concrete scalar value. -/
theorem smart_truncate_three_tier_witness :
    ((∃ i, i < clauseDelimiters.length ∧ ∃ p : Nat,
        rfindSub (c6str.take 62) (clauseDelimiters.getD i []) = (p : Int) ∧ 32 < p ∧
        (∀ j, j < i → rfindSub (c6str.take 62) (clauseDelimiters.getD j []) ≤ 32) ∧
        smart_truncate c6str 65 = pyStrip (c6str.take p)) ∨
      ((∀ d ∈ clauseDelimiters, rfindSub (c6str.take 62) d ≤ 32) ∧
        ' ' ∈ c6str.take 62 ∧ ∃ p : Nat,
        rfindChar (c6str.take 62) ' ' = (p : Int) ∧
        c6str.getD p '?' = ' ' ∧
        smart_truncate c6str 65 = pyStrip (c6str.take p) ++ ellipsis) ∨
      ((∀ d ∈ clauseDelimiters, rfindSub (c6str.take 62) d ≤ 32) ∧
        ' ' ∉ c6str.take 62 ∧
        smart_truncate c6str 65 = pyStrip (c6str.take 62) ++ ellipsis)) ∧
    validate_and_truncate_aspects [("Material".data, AspVal.vstr (List.replicate 70 'x'))] =
      [("Material".data, AspVal.vstr (truncString (List.replicate 70 'x')))] :=
  ⟨smart_truncate_three_tier.1 c6str (by decide),
   (smart_truncate_three_tier.2 ("Material".data) (List.replicate 70 'x')).1⟩

/-- C6 counterexample: in `c6str` the last clause delimiter inside the
window is `', '` at index 50 (after the midpoint and within the ceiling),
yet `_smart_truncate` cuts at the higher-priority `'. '` occurrence at index
39 — so it does not truncate at the last delimiter found within the
ceiling. -/
theorem smart_truncate_priority_counterexample :
    65 < c6str.length ∧
    (", ".data : PyStr) ∈ clauseDelimiters ∧
    rfindSub (c6str.take 62) (", ".data) = 50 ∧
    rfindSub (c6str.take 62) (". ".data) = 39 ∧
    smart_truncate c6str 65 = List.replicate 39 'x' ∧
    smart_truncate c6str 65 ≠ pyStrip (c6str.take 50) :=
  ⟨by decide, by decide, by decide, by decide, by decide, by decide⟩

/-- C7: whenever the FAISS index is missing or the category metadata list is
empty, `search_category` fails with the not-initialized error and returns no
candidate list. -/
theorem retriever_not_initialized (db : VectorDB)
    (product_title product_description : PyStr) (top_k : Nat)
    (h : db.index = none ∨ db.category_metadata = []) :
    search_category db product_title product_description top_k =
      Except.error VdbError.notInitialized := by
  unfold search_category
  split
  · rfl
  · rename_i f hf
    rcases h with h | h
    · rw [hf] at h
      exact absurd h (by simp)
    · have hz : db.category_metadata.length = 0 := by simp [h]
      rw [if_pos hz]

/-- Witness for `retriever_not_initialized`: a database with no index. -/
theorem retriever_not_initialized_witness :
    search_category ⟨none, []⟩ ("Dog Food".data) [] 5 =
      Except.error VdbError.notInitialized :=
  retriever_not_initialized ⟨none, []⟩ ("Dog Food".data) [] 5 (Or.inl rfl)

/-- C8: `initialize_from_cache` indexes a category exactly when it is a leaf
of level 2 to 4, and every indexed category's embedded source text is its
name, `" - "`, and its full hierarchical path. -/
theorem corpus_filter_and_text (cats : List (PyStr × CatData)) :
    (∀ e ∈ corpus_from_cache cats, ∃ c, (e.id, c) ∈ cats ∧ c.leaf = true ∧
      2 ≤ c.level ∧ c.level ≤ 4 ∧
      e.text = c.name ++ sourceTextSep ++ get_category_path cats e.id) ∧
    (∀ cid c, (cid, c) ∈ cats → c.leaf = true → 2 ≤ c.level → c.level ≤ 4 →
      ∃ e ∈ corpus_from_cache cats, e.id = cid ∧
        e.text = c.name ++ sourceTextSep ++ get_category_path cats cid) := by
  constructor
  · intro e he
    obtain ⟨p, hp, hf⟩ := List.mem_filterMap.mp he
    split at hf
    · split at hf
      · rename_i hleaf hband
        cases hf
        exact ⟨p.2, by simpa using hp, hleaf, hband.1, hband.2, rfl⟩
      · exact absurd hf (by simp)
    · exact absurd hf (by simp)
  · intro cid c hmem hleaf h2 h4
    refine ⟨⟨cid, c.name ++ sourceTextSep ++ get_category_path cats cid,
      c.name, c.level, get_category_path cats cid⟩, ?_, rfl, rfl⟩
    refine List.mem_filterMap.mpr ⟨(cid, c), hmem, ?_⟩
    dsimp only
    rw [if_pos hleaf, if_pos ⟨h2, h4⟩]

/-- Witness for `corpus_filter_and_text` on the demonstration taxonomy: the
level-2 leaf with id 360 is indexed with the expected source text. -/
theorem corpus_filter_and_text_witness :
    ∃ e ∈ corpus_from_cache demoCats, e.id = "360".data ∧
      e.text = ("Art Prints".data : PyStr) ++ sourceTextSep ++
        get_category_path demoCats ("360".data) :=
  (corpus_filter_and_text demoCats).2 ("360".data)
    ⟨"Art Prints".data, true, 2, "20".data⟩ (by decide) rfl (by decide) (by decide)

/-- C9: the requirements cache returns the stored value on a hit (leaving the
cache unchanged); on a miss it stores and returns the fetched value — the
empty requirements object when the fetch fails — and a subsequent call for
the same id returns that stored value whatever the external boundary would
now answer (no further external call can change the result). -/
theorem requirements_cache_memoization (cache : List (PyStr × Requirements))
    (cid : PyStr) (fetch : FetchOutcome) :
    (∀ r0, cache_get cache cid = some r0 →
      get_category_requirements_cached cache cid fetch = (r0, cache)) ∧
    (cache_get cache cid = none →
      (fetch = FetchOutcome.err →
        (get_category_requirements_cached cache cid fetch).1 =
          empty_requirements) ∧
      (∀ r, fetch = FetchOutcome.ok r →
        (get_category_requirements_cached cache cid fetch).1 = r)) ∧
    cache_get (get_category_requirements_cached cache cid fetch).2 cid =
      some (get_category_requirements_cached cache cid fetch).1 ∧
    (∀ fetch2, get_category_requirements_cached
        (get_category_requirements_cached cache cid fetch).2 cid fetch2 =
      ((get_category_requirements_cached cache cid fetch).1,
       (get_category_requirements_cached cache cid fetch).2)) := by
  have hset : ∀ (c : List (PyStr × Requirements)) (r : Requirements),
      cache_get (cache_set c cid r) cid = some r := by
    intro c r
    simp [cache_get, cache_set, List.lookup]
  refine ⟨?_, ?_, ?_, ?_⟩
  · intro r0 h0
    unfold get_category_requirements_cached
    rw [h0]
  · intro h0
    constructor
    · intro hf
      subst hf
      unfold get_category_requirements_cached
      rw [h0]
    · intro r hf
      subst hf
      unfold get_category_requirements_cached
      rw [h0]
  · cases h0 : cache_get cache cid with
    | some r0 =>
      unfold get_category_requirements_cached
      rw [h0]
      exact h0
    | none =>
      cases fetch with
      | ok r =>
        unfold get_category_requirements_cached
        rw [h0]
        exact hset cache r
      | err =>
        unfold get_category_requirements_cached
        rw [h0]
        exact hset cache empty_requirements
  · intro fetch2
    cases h0 : cache_get cache cid with
    | some r0 =>
      unfold get_category_requirements_cached
      rw [h0, h0]
    | none =>
      cases fetch with
      | ok r =>
        unfold get_category_requirements_cached
        rw [h0]
        dsimp only
        rw [hset cache r]
      | err =>
        unfold get_category_requirements_cached
        rw [h0]
        dsimp only
        rw [hset cache empty_requirements]

/-- Witness for `requirements_cache_memoization` at a concrete miss followed
by a hit. -/
theorem requirements_cache_memoization_witness :
    (get_category_requirements_cached [] ("360".data) FetchOutcome.err).1 =
      empty_requirements ∧
    get_category_requirements_cached
        (get_category_requirements_cached [] ("360".data) FetchOutcome.err).2
        ("360".data) (FetchOutcome.ok ⟨["Brand".data], [], []⟩) =
      ((get_category_requirements_cached [] ("360".data) FetchOutcome.err).1,
       (get_category_requirements_cached [] ("360".data) FetchOutcome.err).2) :=
  ⟨((requirements_cache_memoization [] ("360".data) FetchOutcome.err).2.1 rfl).1 rfl,
   (requirements_cache_memoization [] ("360".data) FetchOutcome.err).2.2.2
     (FetchOutcome.ok ⟨["Brand".data], [], []⟩)⟩

theorem elemFrame_truncElem (x : AspVal) : elemFrame x (truncElem x) := by
  cases x with
  | vstr s =>
    refine ⟨by simp, by simp, ?_⟩
    intro s' hs' hlen
    cases hs'
    simp only [truncElem]
    unfold truncString
    rw [if_neg (by omega)]
  | vlist zs => exact ⟨by simp [truncElem], by simp [truncElem], by simp⟩
  | vnum n => exact ⟨by simp [truncElem], by simp, by simp⟩

theorem forall₂_elemFrame_map (zs : List AspVal) :
    List.Forall₂ elemFrame zs (zs.map truncElem) := by
  induction zs with
  | nil => simp
  | cons z zt ih =>
    rw [List.map_cons]
    exact List.Forall₂.cons (elemFrame_truncElem z) ih

theorem valueFrame_truncValue (x : AspVal) : valueFrame x (truncValue x) := by
  cases x with
  | vstr s =>
    refine ⟨by simp, ?_, by simp⟩
    intro s' hs' hlen
    cases hs'
    simp only [truncValue]
    unfold truncString
    rw [if_neg (by omega)]
  | vlist zs =>
    refine ⟨by simp, by simp, ?_⟩
    intro zs' hzs'
    cases hzs'
    exact ⟨zs.map truncElem, rfl, forall₂_elemFrame_map zs⟩
  | vnum n => exact ⟨by simp [truncValue], by simp, by simp⟩

/-- C10 (frame property of aspect validation): the validated aspects dict
has exactly the input's keys in order, and per entry the value satisfies the
frame relation — non-string non-list values unchanged, strings within the
ceiling unchanged, lists kept at the same length with every non-string (and
every short string) element unchanged. -/
theorem aspect_validation_frame (aspects : List (PyStr × AspVal)) :
    (validate_and_truncate_aspects aspects).map Prod.fst =
      aspects.map Prod.fst ∧
    List.Forall₂ (fun p q => p.1 = q.1 ∧ valueFrame p.2 q.2) aspects
      (validate_and_truncate_aspects aspects) := by
  constructor
  · simp [validate_and_truncate_aspects]
  · unfold validate_and_truncate_aspects
    induction aspects with
    | nil => simp
    | cons p ps ih =>
      rw [List.map_cons]
      exact List.Forall₂.cons ⟨rfl, valueFrame_truncValue p.2⟩ ih

/-- Witness for `aspect_validation_frame`: a concrete dict with a number, a
short string and a mixed list keeps its keys and those values verbatim. -/
theorem aspect_validation_frame_witness :
    (validate_and_truncate_aspects
        [("Quantity".data, AspVal.vnum 12),
         ("Color".data, AspVal.vstr ("Blue".data)),
         ("Sizes".data, AspVal.vlist [AspVal.vnum 7, AspVal.vstr ("XL".data)])]).map
        Prod.fst =
      [("Quantity".data : PyStr), "Color".data, "Sizes".data] ∧
    validate_and_truncate_aspects
        [("Quantity".data, AspVal.vnum 12),
         ("Color".data, AspVal.vstr ("Blue".data)),
         ("Sizes".data, AspVal.vlist [AspVal.vnum 7, AspVal.vstr ("XL".data)])] =
      [("Quantity".data, AspVal.vnum 12),
       ("Color".data, AspVal.vstr ("Blue".data)),
       ("Sizes".data, AspVal.vlist [AspVal.vnum 7, AspVal.vstr ("XL".data)])] := by
  constructor
  · exact (aspect_validation_frame
      [("Quantity".data, AspVal.vnum 12),
       ("Color".data, AspVal.vstr ("Blue".data)),
       ("Sizes".data, AspVal.vlist [AspVal.vnum 7, AspVal.vstr ("XL".data)])]).1
  · rfl
